import Mathlib

/-!
Verification of the benchmark orchestration pipeline of the NumSim validation
scripts (validation/executor.py and validation/plots.py).

The Python code is shallowly embedded: pure string building becomes Lean
string functions, the filesystem becomes explicit state (a list of alive
scratch files, a map from paths to parsed result files), the external solver
process becomes an exit-code oracle, and numeric values are rationals.
-/

namespace NumSimVal

/-! ## Constants from executor.py -/

-- DATAFILE_PREFIX in the source; renamed here.
def DATAFILE_STEM : String := "./lid-driven-cavity"

def GEOM_SUFFIX : String := ".geom"

def PARAMS_SUFFIX : String := ".params"

def JSON_SUFFIX : String := ".json"

def REL_PATH_TMP : String := "./tmp"

def REL_PATH_NUMSIM_EXEC : String := "../build/main"

def GEOM_CAVITY_SIZES : List Nat := [32, 64, 100, 128, 200, 256, 300]

/-! ## Decimal formatting

Python formats sizes with `"{n}x{n}".format(n=...)`, i.e. the decimal
representation of the integer.  We embed this as `Nat.repr`.  To reason about
it we introduce `natDecList`, a structurally transparent description of the
decimal digit list, and prove `Nat.repr n = (natDecList n).asString`.
-/

/-- Decimal digit characters of a natural number, most significant first. -/
def natDecList (n : Nat) : List Char :=
  if h : n < 10 then [Nat.digitChar n]
  else natDecList (n / 10) ++ [Nat.digitChar (n % 10)]
decreasing_by exact Nat.div_lt_self (by omega) (by omega)

theorem natDecList_lt {n : Nat} (h : n < 10) : natDecList n = [Nat.digitChar n] := by
  rw [natDecList]; simp [h]

theorem natDecList_ge {n : Nat} (h : ¬ n < 10) :
    natDecList n = natDecList (n / 10) ++ [Nat.digitChar (n % 10)] := by
  rw [natDecList]; simp [h]

theorem natDecList_ne_nil (n : Nat) : natDecList n ≠ [] := by
  by_cases h : n < 10
  · rw [natDecList_lt h]; simp
  · rw [natDecList_ge h]; simp

/-- The fueled core of `Nat.toDigits` agrees with `natDecList` when given
enough fuel. -/
theorem toDigitsCore_eq_natDecList :
    ∀ (fuel n : Nat) (acc : List Char), n < fuel →
      Nat.toDigitsCore 10 fuel n acc = natDecList n ++ acc := by
  intro fuel
  induction fuel with
  | zero => intro n acc h; omega
  | succ f ih =>
    intro n acc h
    simp only [Nat.toDigitsCore]
    by_cases h10 : n / 10 = 0
    · have hn : n < 10 := by omega
      rw [natDecList_lt hn]
      simp [h10, Nat.mod_eq_of_lt hn]
    · have hn : ¬ n < 10 := by
        intro hc
        exact h10 (Nat.div_eq_of_lt hc)
      rw [natDecList_ge hn]
      have hfuel : n / 10 < f := by
        have h1 : n / 10 < n := Nat.div_lt_self (by omega) (by omega)
        omega
      simp only [if_neg h10]
      rw [ih (n / 10) _ hfuel]
      simp

theorem repr_eq_natDecList (n : Nat) : Nat.repr n = (natDecList n).asString := by
  unfold Nat.repr Nat.toDigits
  rw [toDigitsCore_eq_natDecList (n + 1) n [] (by omega)]
  simp

theorem digitChar_inj_lt10 : ∀ a : Nat, a < 10 → ∀ b : Nat, b < 10 →
    Nat.digitChar a = Nat.digitChar b → a = b := by decide

theorem natDecList_length_pos (n : Nat) : 0 < (natDecList n).length :=
  List.length_pos.mpr (natDecList_ne_nil n)

/-- Decimal representations of distinct naturals are distinct. -/
theorem natDecList_inj : ∀ m n : Nat, natDecList m = natDecList n → m = n := by
  intro m
  induction m using Nat.strong_induction_on with
  | _ m ih =>
    intro n h
    by_cases hm : m < 10 <;> by_cases hn : n < 10
    · rw [natDecList_lt hm, natDecList_lt hn] at h
      have hd : Nat.digitChar m = Nat.digitChar n := by simpa using h
      exact digitChar_inj_lt10 m hm n hn hd
    · rw [natDecList_lt hm, natDecList_ge hn] at h
      have hlen := congrArg List.length h
      simp only [List.length_append, List.length_cons, List.length_nil] at hlen
      have := natDecList_length_pos (n / 10)
      omega
    · rw [natDecList_ge hm, natDecList_lt hn] at h
      have hlen := congrArg List.length h
      simp only [List.length_append, List.length_cons, List.length_nil] at hlen
      have := natDecList_length_pos (m / 10)
      omega
    · rw [natDecList_ge hm, natDecList_ge hn] at h
      have hparts := List.append_inj' h rfl
      have hdiv : m / 10 = n / 10 := by
        have hlt : m / 10 < m := Nat.div_lt_self (by omega) (by omega)
        exact ih (m / 10) hlt (n / 10) hparts.1
      have hmod : m % 10 = n % 10 := by
        have hd : Nat.digitChar (m % 10) = Nat.digitChar (n % 10) := by
          simpa using hparts.2
        exact digitChar_inj_lt10 _ (Nat.mod_lt _ (by omega)) _ (Nat.mod_lt _ (by omega)) hd
      omega

theorem repr_inj {m n : Nat} (h : Nat.repr m = Nat.repr n) : m = n := by
  rw [repr_eq_natDecList, repr_eq_natDecList] at h
  exact natDecList_inj m n (congrArg String.data h)

/-! ## Filenames (executor.py, json_filename; plots.py, FILENAME_TEMPLATE) -/

/-- json_filename from executor.py:
`DATAFILE_PREFIX + "_{n}x{n}".format(n=cavity_size) + JSON_SUFFIX`. -/
def json_filename (n : Nat) : String :=
  DATAFILE_STEM ++ "_" ++ Nat.repr n ++ "x" ++ Nat.repr n ++ JSON_SUFFIX

/-- FILENAME_TEMPLATE.format(n=n) from plots.py. -/
def FILENAME_TEMPLATE (n : Nat) : String :=
  "lid-driven-cavity_" ++ Nat.repr n ++ "x" ++ Nat.repr n ++ ".json"

theorem json_filename_inj {m n : Nat} (h : json_filename m = json_filename n) : m = n := by
  have hdata := congrArg String.data h
  simp only [json_filename, DATAFILE_STEM, JSON_SUFFIX, String.data_append,
    List.append_assoc] at hdata
  have h1 := List.append_cancel_left hdata
  have h2 := List.append_cancel_left h1
  have hlen := congrArg List.length h2
  simp only [List.length_append] at hlen
  have hlen2 : (Nat.repr m).data.length = (Nat.repr n).data.length := by omega
  have hfirst := (List.append_inj h2 hlen2).1
  exact repr_inj (String.ext hfirst)

/-! ## Geometry content (executor.py, create_geom)

`create_geom(cavity_size)` builds a string: a five-line header, then an
all-inflow row `"H" * n`, then `n - 2` interior rows `"#" + " " * (n - 2)
 + "#"`, then an all-wall row `"#" * n`, every row terminated by a newline.
The string is written to `abs_path_geom(cavity_size)`.
-/

/-- Header part of the geometry file (content lines 1-5 of create_geom). -/
def geomHeader (n : Nat) : String :=
  "size = " ++ Nat.repr n ++ " " ++ Nat.repr n ++ "\n"
  ++ "length = 1.0 1.0\n"
  ++ "velocity = 1.0 0.0\n"
  ++ "pressure = 0.1\n"
  ++ "geometry = free\n"

/-- One interior row appended per loop iteration in create_geom. -/
def geomInnerRow (n : Nat) : String :=
  "#" ++ String.mk (List.replicate (n - 2) ' ') ++ "#\n"

/-- The for-loop of create_geom: `k` remaining iterations, each appending one
interior row. -/
def innerRows (n : Nat) : Nat → String
  | 0 => ""
  | k + 1 => geomInnerRow n ++ innerRows n k

/-- The grid-mask part of the geometry content (content lines 6 onward). -/
def geomMask (n : Nat) : String :=
  String.mk (List.replicate n 'H') ++ "\n"
  ++ innerRows n (n - 2)
  ++ String.mk (List.replicate n '#') ++ "\n"

/-- Full content produced by create_geom for a given cavity size. -/
def createGeomContent (n : Nat) : String :=
  geomHeader n ++ geomMask n

/-- Scratch directory as in abs_path_tmp, parametrized by the directory of
the script (Python: `os.path.dirname(os.path.abspath(__file__))`). -/
def absPathTmp (scriptDir : String) : String :=
  scriptDir ++ "/" ++ REL_PATH_TMP

/-- abs_path_geom from executor.py. -/
def absPathGeom (scriptDir : String) (n : Nat) : String :=
  absPathTmp scriptDir ++ "/" ++ DATAFILE_STEM ++ "_" ++ Nat.repr n ++ "x" ++ Nat.repr n
    ++ GEOM_SUFFIX

/-- abs_path_params from executor.py. -/
def absPathParams (scriptDir : String) : String :=
  absPathTmp scriptDir ++ "/" ++ DATAFILE_STEM ++ PARAMS_SUFFIX

/-- A written file: target path and byte content. -/
structure WrittenFile where
  path : String
  content : String
deriving DecidableEq

/-- create_geom as a file write: the path depends on the script location,
the content only on the size. -/
def create_geom (scriptDir : String) (n : Nat) : WrittenFile :=
  ⟨absPathGeom scriptDir n, createGeomContent n⟩

/-! ## Splitting text into lines

`linesOf` splits a character list at newline characters, dropping a final
empty segment, matching how the geometry mask rows are laid out one per
newline-terminated line.
-/

def linesOf : List Char → List (List Char)
  | [] => []
  | c :: rest =>
    if c = '\n' then [] :: linesOf rest
    else
      match linesOf rest with
      | [] => [[c]]
      | l :: ls => (c :: l) :: ls

theorem linesOf_line_append {l : List Char} (rest : List Char) (hl : '\n' ∉ l) :
    linesOf (l ++ '\n' :: rest) = l :: linesOf rest := by
  induction l with
  | nil => simp [linesOf]
  | cons c l ih =>
    have hc : c ≠ '\n' := fun h => hl (h ▸ List.mem_cons_self c l)
    have hl2 : '\n' ∉ l := fun h => hl (List.mem_cons_of_mem c h)
    simp only [List.cons_append, linesOf, if_neg hc, List.append_eq]
    rw [ih hl2]

theorem data_innerRows (n : Nat) : ∀ k : Nat,
    (innerRows n k).data
      = (List.replicate k (('#' :: List.replicate (n - 2) ' ') ++ ['#'])).flatMap
          (fun r => r ++ ['\n']) := by
  intro k
  induction k with
  | zero => rfl
  | succ k ih =>
    simp only [innerRows, String.data_append, ih, List.replicate_succ, List.flatMap_cons]
    simp [geomInnerRow, String.data_append]

theorem linesOf_flatMap_rows (rows : List (List Char)) (rest : List Char)
    (h : ∀ r ∈ rows, '\n' ∉ r) :
    linesOf (rows.flatMap (fun r => r ++ ['\n']) ++ rest) = rows ++ linesOf rest := by
  induction rows with
  | nil => simp
  | cons r rows ih =>
    have hr : '\n' ∉ r := h r (List.mem_cons_self r rows)
    have hrows : ∀ q ∈ rows, '\n' ∉ q := fun q hq => h q (List.mem_cons_of_mem r hq)
    have key := linesOf_line_append ((rows.flatMap fun q => q ++ ['\n']) ++ rest) hr
    simp only [List.flatMap_cons, List.append_assoc, List.singleton_append,
      List.cons_append, List.nil_append]
    rw [key, ih hrows]

/-- Rows of the grid mask, as character lists: inflow row, interior rows,
wall row. -/
def maskRows (n : Nat) : List (List Char) :=
  List.replicate n 'H'
    :: (List.replicate (n - 2) (('#' :: List.replicate (n - 2) ' ') ++ ['#'])
        ++ [List.replicate n '#'])

theorem mem_replicate_ne {c d : Char} {k : Nat} (h : c ≠ d) :
    c ∉ List.replicate k d := fun hm => h (List.eq_of_mem_replicate hm)

theorem linesOf_geomMask (n : Nat) : linesOf (geomMask n).data = maskRows n := by
  have hH : ('\n' : Char) ∉ List.replicate n 'H' := mem_replicate_ne (by decide)
  have hW : ('\n' : Char) ∉ List.replicate n '#' := mem_replicate_ne (by decide)
  have hrow : ∀ r ∈ List.replicate (n - 2) (('#' :: List.replicate (n - 2) ' ') ++ ['#']),
      '\n' ∉ r := by
    intro r hr
    have := List.eq_of_mem_replicate hr
    subst this
    intro hm
    rcases List.mem_append.mp hm with hm | hm
    · rcases List.mem_cons.mp hm with hm | hm
      · exact absurd hm (by decide)
      · exact absurd (List.eq_of_mem_replicate hm) (by decide)
    · exact absurd hm (by decide)
  have hshape : (geomMask n).data
      = List.replicate n 'H'
        ++ '\n' :: ((List.replicate (n - 2) (('#' :: List.replicate (n - 2) ' ') ++ ['#'])).flatMap
            (fun r => r ++ ['\n'])
          ++ (List.replicate n '#' ++ '\n' :: [])) := by
    simp [geomMask, String.data_append, data_innerRows]
  rw [hshape, linesOf_line_append _ hH, linesOf_flatMap_rows _ _ hrow,
    linesOf_line_append [] hW]
  simp [maskRows, linesOf]

/-- The header lines of the geometry content, as character lists. -/
def headerRows (n : Nat) : List (List Char) :=
  [("size = " ++ Nat.repr n ++ " " ++ Nat.repr n).data,
   "length = 1.0 1.0".data,
   "velocity = 1.0 0.0".data,
   "pressure = 0.1".data,
   "geometry = free".data]

theorem digitChar_safe : ∀ k : Nat, k < 10 →
    Nat.digitChar k ≠ '\n' ∧ Nat.digitChar k ≠ ' ' ∧ Nat.digitChar k ≠ '"' := by decide

/-- Decimal digits contain no newline, no space and no double quote. -/
theorem natDecList_safe (n : Nat) :
    ∀ c ∈ natDecList n, c ≠ '\n' ∧ c ≠ ' ' ∧ c ≠ '"' := by
  induction n using Nat.strong_induction_on with
  | _ n ih =>
    intro c hc
    by_cases h : n < 10
    · rw [natDecList_lt h] at hc
      have : c = Nat.digitChar n := by simpa using hc
      subst this
      exact digitChar_safe n h
    · rw [natDecList_ge h] at hc
      rcases List.mem_append.mp hc with hm | hm
      · exact ih (n / 10) (Nat.div_lt_self (by omega) (by omega)) c hm
      · have : c = Nat.digitChar (n % 10) := by simpa using hm
        subst this
        exact digitChar_safe (n % 10) (Nat.mod_lt _ (by omega))

theorem repr_safe (n : Nat) :
    ∀ c ∈ (Nat.repr n).data, c ≠ '\n' ∧ c ≠ ' ' ∧ c ≠ '"' := by
  rw [repr_eq_natDecList]
  exact natDecList_safe n

theorem newline_not_mem_repr (n : Nat) : ('\n' : Char) ∉ (Nat.repr n).data :=
  fun hm => (repr_safe n '\n' hm).1 rfl

/-- The full geometry content splits into the five header lines followed by
the mask rows. -/
theorem linesOf_createGeomContent (n : Nat) :
    linesOf (createGeomContent n).data = headerRows n ++ maskRows n := by
  have hsize : ('\n' : Char) ∉ ("size = " ++ Nat.repr n ++ " " ++ Nat.repr n).data := by
    simp only [String.data_append]
    intro hm
    rcases List.mem_append.mp hm with hm | hm
    · rcases List.mem_append.mp hm with hm | hm
      · rcases List.mem_append.mp hm with hm | hm
        · exact absurd hm (by decide)
        · exact newline_not_mem_repr n hm
      · exact absurd hm (by decide)
    · exact newline_not_mem_repr n hm
  have h2 : ('\n' : Char) ∉ "length = 1.0 1.0".data := by decide
  have h3 : ('\n' : Char) ∉ "velocity = 1.0 0.0".data := by decide
  have h4 : ('\n' : Char) ∉ "pressure = 0.1".data := by decide
  have h5 : ('\n' : Char) ∉ "geometry = free".data := by decide
  have hshape : (createGeomContent n).data
      = ("size = " ++ Nat.repr n ++ " " ++ Nat.repr n).data
        ++ '\n' :: ("length = 1.0 1.0".data
        ++ '\n' :: ("velocity = 1.0 0.0".data
        ++ '\n' :: ("pressure = 0.1".data
        ++ '\n' :: ("geometry = free".data
        ++ '\n' :: (geomMask n).data)))) := by
    simp [createGeomContent, geomHeader, String.data_append]
  rw [hshape, linesOf_line_append _ hsize, linesOf_line_append _ h2,
    linesOf_line_append _ h3, linesOf_line_append _ h4, linesOf_line_append _ h5,
    linesOf_geomMask]
  rfl

/-! ## Metrics loading and speed-up (plots.py) -/

/-- One record of a RunResult file: total duration and execution count. -/
structure MetricEntry where
  duration : ℚ
  executions : ℚ
deriving DecidableEq

/-- A parsed RunResult file: a mapping from metric key to record. -/
def RunResult := List (String × MetricEntry)

instance : DecidableEq RunResult := by
  unfold RunResult
  infer_instance

/-- Failures of the metrics loader: `open` raises on a missing file, dict
indexing raises on a missing key. -/
inductive DataError where
  | missingFile (path : String)
  | missingMetric (key : String)
deriving DecidableEq

/-- load_json from plots.py over an explicit filesystem: returns the parsed
file or fails like `open` does on a missing path. -/
def load_json (fs : String → Option RunResult) (path : String) :
    Except DataError RunResult :=
  match fs path with
  | some r => Except.ok r
  | none => Except.error (DataError.missingFile path)

/-- The loop body of get_results_avg: for each size read the file and take
`entry["duration"] / entry["executions"]` for the given key, in order. -/
def results_loop (fs : String → Option RunResult) (directory key : String) :
    List Nat → Except DataError (List ℚ)
  | [] => Except.ok []
  | n :: rest =>
    match load_json fs (directory ++ "/" ++ FILENAME_TEMPLATE n) with
    | Except.error e => Except.error e
    | Except.ok r =>
      match List.lookup key r with
      | none => Except.error (DataError.missingMetric key)
      | some entry =>
        match results_loop fs directory key rest with
        | Except.error e => Except.error e
        | Except.ok xs => Except.ok (entry.duration / entry.executions :: xs)

/-- get_results_avg from plots.py: per-size `duration / executions`, then a
final division of every element by 1000. -/
def get_results_avg (fs : String → Option RunResult) (sizes : List Nat)
    (directory key : String) : Except DataError (List ℚ) :=
  match results_loop fs directory key sizes with
  | Except.ok data => Except.ok (data.map (fun x => x / 1000))
  | Except.error e => Except.error e

/-- calc_speedup from plots.py: element-wise `base / other` (np.divide on
equal-length one-dimensional arrays). -/
def calc_speedup (base other : List ℚ) : List ℚ :=
  List.zipWith (fun b o => b / o) base other

/-! ## Claim theorems for the artifact generator -/

/-- C1: for every size N ≥ 3, the content created by create_geom is the five
header lines followed by a grid mask of exactly N lines, each of length N:
line 0 is N inflow markers, lines 1..N-2 are a wall, N-2 spaces and a wall,
and the final line is N wall markers. -/
theorem c1_geom_mask_structure (n : Nat) (h : 3 ≤ n) :
    linesOf (createGeomContent n).data = headerRows n ++ maskRows n
    ∧ (maskRows n).length = n
    ∧ (∀ l ∈ maskRows n, l.length = n)
    ∧ maskRows n
        = [List.replicate n 'H']
          ++ List.replicate (n - 2) (('#' :: List.replicate (n - 2) ' ') ++ ['#'])
          ++ [List.replicate n '#'] := by
  refine ⟨linesOf_createGeomContent n, ?_, ?_, by simp [maskRows]⟩
  · simp only [maskRows, List.length_cons, List.length_append, List.length_replicate,
      List.length_singleton, List.length_nil]
    omega
  · intro l hl
    simp only [maskRows, List.mem_cons, List.mem_append, List.mem_singleton,
      List.not_mem_nil, or_false] at hl
    rcases hl with hl | hl | hl
    · subst hl; simp
    · have := List.eq_of_mem_replicate hl
      subst this
      simp only [List.length_append, List.length_cons, List.length_replicate,
        List.length_singleton, List.length_nil]
      omega
    · subst hl; simp

theorem c1_geom_mask_structure_witness :
    3 ≤ 3
    ∧ (linesOf (createGeomContent 3).data = headerRows 3 ++ maskRows 3
      ∧ (maskRows 3).length = 3
      ∧ (∀ l ∈ maskRows 3, l.length = 3)
      ∧ maskRows 3
          = [List.replicate 3 'H']
            ++ List.replicate (3 - 2) (('#' :: List.replicate (3 - 2) ' ') ++ ['#'])
            ++ [List.replicate 3 '#']) :=
  ⟨by decide, c1_geom_mask_structure 3 (by decide)⟩

/-- C7: create_geom is deterministic in its size argument: the written
content is a pure function of N, independent of any other state (here, of
the script directory that fixes the target path), so any two invocations
with the same N produce byte-identical content. -/
theorem c7_create_geom_pure :
    ∀ (d1 d2 : String) (n : Nat),
      (create_geom d1 n).content = (create_geom d2 n).content
      ∧ (create_geom d1 n).content = createGeomContent n :=
  fun _ _ _ => ⟨rfl, rfl⟩

/-- C10: below the documented domain create_geom still terminates and writes
the header followed by a mask of max(N, 2) lines: for N = 2 the mask is
exactly HH then two walls (so the N-lines-of-length-N property already holds
at N = 2), while for N = 1 the mask has two lines, H then a wall, with no
interior rows in either case. -/
theorem c10_small_sizes :
    maskRows 2 = [['H', 'H'], ['#', '#']]
    ∧ maskRows 1 = [['H'], ['#']]
    ∧ (∀ n, linesOf (createGeomContent n).data = headerRows n ++ maskRows n)
    ∧ (maskRows 2).length = max 2 2
    ∧ (maskRows 1).length = max 1 2
    ∧ (∀ l ∈ maskRows 2, l.length = 2) :=
  ⟨by decide, by decide, linesOf_createGeomContent, by decide, by decide, by decide⟩

/-! ## Claim theorems for the metrics loader and the speed-up analyzer -/

theorem results_loop_ok (fs : String → Option RunResult) (directory key : String)
    (entry : Nat → MetricEntry) :
    ∀ sizes : List Nat,
      (∀ n ∈ sizes, ∃ r, fs (directory ++ "/" ++ FILENAME_TEMPLATE n) = some r
        ∧ List.lookup key r = some (entry n)) →
      results_loop fs directory key sizes
        = Except.ok (sizes.map (fun n => (entry n).duration / (entry n).executions)) := by
  intro sizes
  induction sizes with
  | nil => intro _; rfl
  | cons n rest ih =>
    intro h
    obtain ⟨r, hr, hk⟩ := h n (List.mem_cons_self n rest)
    have hrest := ih (fun m hm => h m (List.mem_cons_of_mem n hm))
    simp only [results_loop, load_json, hr, hk, hrest, List.map_cons]

theorem results_loop_pre_error (fs : String → Option RunResult) (directory key : String)
    {e : DataError} :
    ∀ (pre : List Nat) (rest : List Nat),
      (∀ m ∈ pre, ∃ r en, fs (directory ++ "/" ++ FILENAME_TEMPLATE m) = some r
        ∧ List.lookup key r = some en) →
      results_loop fs directory key rest = Except.error e →
      results_loop fs directory key (pre ++ rest) = Except.error e := by
  intro pre
  induction pre with
  | nil => intro rest _ h; simpa using h
  | cons m pre ih =>
    intro rest h hrest
    obtain ⟨r, en, hr, hk⟩ := h m (List.mem_cons_self m pre)
    have hpr := ih rest (fun q hq => h q (List.mem_cons_of_mem m hq)) hrest
    simp only [List.cons_append, results_loop, load_json, hr, hk, List.append_eq, hpr]

/-- A filesystem with the two RunResult files of the spec scenario. -/
def exampleFS : String → Option RunResult := fun p =>
  if p = "d" ++ "/" ++ FILENAME_TEMPLATE 32 then
    some [("solver::iteration::full", ⟨2000, 10⟩)]
  else if p = "d" ++ "/" ++ FILENAME_TEMPLATE 64 then
    some [("solver::iteration::full", ⟨1000, 10⟩)]
  else none

/-- Entries of the spec scenario, per size. -/
def exampleEntry : Nat → MetricEntry := fun n =>
  if n = 32 then ⟨2000, 10⟩ else ⟨1000, 10⟩

/-- C2: get_results_avg returns one value per size in the order of the sizes
list, each equal to duration / executions for the metric key in the file of
that size, divided by 1000; on the spec scenario the values are 0.2 and 0.1
and the speed-up of the first against the second is 2. -/
theorem c2_load_dataset_values :
    (∀ (fs : String → Option RunResult) (directory key : String) (sizes : List Nat)
        (entry : Nat → MetricEntry),
      (∀ n ∈ sizes, ∃ r, fs (directory ++ "/" ++ FILENAME_TEMPLATE n) = some r
          ∧ List.lookup key r = some (entry n)) →
      get_results_avg fs sizes directory key
        = Except.ok (sizes.map
            (fun n => (entry n).duration / (entry n).executions / 1000)))
    ∧ get_results_avg exampleFS [32, 64] "d" "solver::iteration::full"
        = Except.ok [1 / 5, 1 / 10]
    ∧ calc_speedup [1 / 5] [1 / 10] = [2] := by
  have hgen : ∀ (fs : String → Option RunResult) (directory key : String)
      (sizes : List Nat) (entry : Nat → MetricEntry),
      (∀ n ∈ sizes, ∃ r, fs (directory ++ "/" ++ FILENAME_TEMPLATE n) = some r
          ∧ List.lookup key r = some (entry n)) →
      get_results_avg fs sizes directory key
        = Except.ok (sizes.map
            (fun n => (entry n).duration / (entry n).executions / 1000)) := by
    intro fs directory key sizes entry h
    unfold get_results_avg
    rw [results_loop_ok fs directory key entry sizes h]
    simp [List.map_map, Function.comp]
  refine ⟨hgen, ?_, ?_⟩
  · have h := hgen exampleFS "d" "solver::iteration::full" [32, 64] exampleEntry ?_
    · rw [h]
      norm_num [exampleEntry]
    · intro n hn
      rcases List.mem_cons.mp hn with h | hn
      · subst h
        exact ⟨[("solver::iteration::full", ⟨2000, 10⟩)], by decide, by decide⟩
      · rcases List.mem_cons.mp hn with h | hn
        · subst h
          exact ⟨[("solver::iteration::full", ⟨1000, 10⟩)], by decide, by decide⟩
        · exact absurd hn (List.not_mem_nil n)
  · show List.zipWith (fun b o => b / o) [1 / 5] [1 / 10] = [2]
    norm_num

theorem c2_load_dataset_values_witness :
    get_results_avg exampleFS [32, 64] "d" "solver::iteration::full"
      = Except.ok ([32, 64].map
          (fun n => (exampleEntry n).duration / (exampleEntry n).executions / 1000)) := by
  refine c2_load_dataset_values.1 exampleFS "d" "solver::iteration::full" [32, 64]
    exampleEntry ?_
  intro n hn
  rcases List.mem_cons.mp hn with h | hn
  · subst h
    exact ⟨[("solver::iteration::full", ⟨2000, 10⟩)], by decide, by decide⟩
  · rcases List.mem_cons.mp hn with h | hn
    · subst h
      exact ⟨[("solver::iteration::full", ⟨1000, 10⟩)], by decide, by decide⟩
    · exact absurd hn (List.not_mem_nil n)

/-- C5: a missing output file yields a MissingFile error and a present file
without the requested key yields a MissingMetric error; in both cases the
dataset yields an error instead of any result sequence. -/
theorem c5_missing_file_or_metric :
    ∀ (fs : String → Option RunResult) (directory key : String)
      (pre : List Nat) (n : Nat) (post : List Nat),
      (∀ m ∈ pre, ∃ r en, fs (directory ++ "/" ++ FILENAME_TEMPLATE m) = some r
          ∧ List.lookup key r = some en) →
      (fs (directory ++ "/" ++ FILENAME_TEMPLATE n) = none →
        get_results_avg fs (pre ++ n :: post) directory key
          = Except.error
              (DataError.missingFile (directory ++ "/" ++ FILENAME_TEMPLATE n)))
      ∧ (∀ r, fs (directory ++ "/" ++ FILENAME_TEMPLATE n) = some r →
          List.lookup key r = none →
          get_results_avg fs (pre ++ n :: post) directory key
            = Except.error (DataError.missingMetric key)) := by
  intro fs directory key pre n post hpre
  constructor
  · intro hnone
    have hhead : results_loop fs directory key (n :: post)
        = Except.error
            (DataError.missingFile (directory ++ "/" ++ FILENAME_TEMPLATE n)) := by
      simp [results_loop, load_json, hnone]
    have := results_loop_pre_error fs directory key pre (n :: post) hpre hhead
    simp [get_results_avg, this]
  · intro r hr hk
    have hhead : results_loop fs directory key (n :: post)
        = Except.error (DataError.missingMetric key) := by
      simp [results_loop, load_json, hr, hk]
    have := results_loop_pre_error fs directory key pre (n :: post) hpre hhead
    simp [get_results_avg, this]

theorem c5_missing_file_or_metric_witness :
    get_results_avg (fun _ => none) ([] ++ 32 :: []) "d" "k"
      = Except.error (DataError.missingFile ("d" ++ "/" ++ FILENAME_TEMPLATE 32)) :=
  (c5_missing_file_or_metric (fun _ => none) "d" "k" [] 32 []
    (by intro m hm; exact absurd hm (List.not_mem_nil m))).1 rfl

theorem speedup_scale (k : ℚ) (hk : k ≠ 0) : ∀ base other : List ℚ,
    calc_speedup (base.map (fun x => k * x)) (other.map (fun x => k * x))
      = calc_speedup base other := by
  intro base
  induction base with
  | nil => intro other; rfl
  | cons b bs ih =>
    intro other
    cases other with
    | nil => rfl
    | cons o os =>
      simp only [List.map_cons, calc_speedup, List.zipWith_cons_cons]
      rw [mul_div_mul_left b o hk]
      have := ih os
      simp only [calc_speedup] at this
      rw [this]

/-- C8: calc_speedup is scale-homogeneous: scaling both equal-length
sequences of positive values by a positive scalar leaves the element-wise
ratio unchanged. -/
theorem c8_speedup_scale_homogeneous :
    ∀ (base other : List ℚ) (k : ℚ),
      base.length = other.length →
      (∀ x ∈ base, 0 < x) → (∀ x ∈ other, 0 < x) → 0 < k →
      calc_speedup (base.map (fun x => k * x)) (other.map (fun x => k * x))
        = calc_speedup base other :=
  fun base other k _ _ _ hk => speedup_scale k (ne_of_gt hk) base other

theorem c8_speedup_scale_homogeneous_witness :
    calc_speedup ([1, 2].map (fun x => (2 : ℚ) * x)) ([4, 5].map (fun x => (2 : ℚ) * x))
      = calc_speedup [1, 2] [4, 5] :=
  c8_speedup_scale_homogeneous [1, 2] [4, 5] 2 (by decide)
    (by intro x hx; rcases List.mem_cons.mp hx with h | hx
        · subst h; norm_num
        · rcases List.mem_cons.mp hx with h | hx
          · subst h; norm_num
          · exact absurd hx (List.not_mem_nil x))
    (by intro x hx; rcases List.mem_cons.mp hx with h | hx
        · subst h; norm_num
        · rcases List.mem_cons.mp hx with h | hx
          · subst h; norm_num
          · exact absurd hx (List.not_mem_nil x))
    (by norm_num)

/-- C6: json_filename is injective over positive sizes, and the filename is
a pure function of the size and the fixed stem and suffix constants. -/
theorem c6_json_filename_injective :
    (∀ m n : Nat, 0 < m → 0 < n → json_filename m = json_filename n → m = n)
    ∧ ∀ n : Nat, json_filename n
        = DATAFILE_STEM ++ "_" ++ Nat.repr n ++ "x" ++ Nat.repr n ++ JSON_SUFFIX :=
  ⟨fun _ _ _ _ h => json_filename_inj h, fun _ => rfl⟩

theorem c6_json_filename_injective_witness :
    0 < 2 ∧ (2 : Nat) = 2 :=
  ⟨by decide, c6_json_filename_injective.1 2 2 (by decide) (by decide) rfl⟩

/-! ## The sweep (executor.py, exec_sim and execute)

The filesystem state relevant to the sweep is the multiset of alive scratch
files and the set of RunResult files written to the data directory.  Scratch
files are identified by kind and size; their concrete paths are given by
`sfilePath`, built from the path functions of the source.  The external
solver is an exit-code oracle; per the solver CLI contract it writes its
JSON output exactly when it exits zero.
-/

/-- A scratch file: the shared parameter file, the geometry file of one
size, or the stdout log of one size. -/
inductive SFile where
  | params
  | geom (n : Nat)
  | log (n : Nat)
deriving DecidableEq

/-- Concrete path of a scratch file (abs_path_params, abs_path_geom, and the
`.tmp.{size}.stdout` pattern of exec_sim). -/
def sfilePath (scriptDir : String) : SFile → String
  | SFile.params => absPathParams scriptDir
  | SFile.geom n => absPathGeom scriptDir n
  | SFile.log n => absPathTmp scriptDir ++ "/.tmp." ++ Nat.repr n ++ ".stdout"

/-- Filesystem state of a sweep: alive scratch files and RunResult files
present in the data directory. -/
structure SweepState where
  scratch : List SFile
  results : List String
deriving DecidableEq

/-- exec_sim for one size: the stdout log is opened (created), the solver
runs; on exit zero the solver has written its JSON output and the log is
removed; on nonzero exit check_call raises, leaving the log in place. -/
def exec_sim (exit : Nat → Nat) (st : SweepState) (n : Nat) :
    Except SweepState SweepState :=
  let st1 : SweepState := { st with scratch := SFile.log n :: st.scratch }
  if exit n = 0 then
    let st2 : SweepState := { st1 with results := json_filename n :: st1.results }
    Except.ok { st2 with scratch := st2.scratch.filter (fun f => f ≠ SFile.log n) }
  else
    Except.error st1

/-- One iteration of the size loop in execute: create the geometry, run the
simulation, remove the geometry; a raised error aborts. -/
def runSize (exit : Nat → Nat) (st : SweepState) (n : Nat) :
    Except SweepState SweepState :=
  let st1 : SweepState := { st with scratch := SFile.geom n :: st.scratch }
  match exec_sim exit st1 n with
  | Except.error e => Except.error e
  | Except.ok st2 =>
      Except.ok { st2 with scratch := st2.scratch.filter (fun f => f ≠ SFile.geom n) }

/-- The size loop of execute. -/
def runSweep (exit : Nat → Nat) : SweepState → List Nat → Except SweepState SweepState
  | st, [] => Except.ok st
  | st, n :: rest =>
    match runSize exit st n with
    | Except.error e => Except.error e
    | Except.ok st2 => runSweep exit st2 rest

/-- execute from executor.py: create the parameter file, loop over all
sizes, remove the parameter file. -/
def execute (exit : Nat → Nat) (sizes : List Nat) : Except SweepState SweepState :=
  match runSweep exit { scratch := [SFile.params], results := [] } sizes with
  | Except.error e => Except.error e
  | Except.ok st =>
      Except.ok { st with scratch := st.scratch.filter (fun f => f ≠ SFile.params) }

theorem filter_ne_self (n : Nat) (l : List SFile) :
    (SFile.log n :: l).filter (fun f => f ≠ SFile.log n)
      = l.filter (fun f => f ≠ SFile.log n) := by
  simp [List.filter_cons]

theorem runSize_ok (exit : Nat → Nat) (st : SweepState) (n : Nat)
    (hn : exit n = 0) (hs : st.scratch = [SFile.params]) :
    runSize exit st n
      = Except.ok { scratch := [SFile.params],
                    results := json_filename n :: st.results } := by
  simp only [runSize, exec_sim, hs]
  rw [if_pos hn]
  simp [List.filter_cons]

theorem runSweep_all_ok (exit : Nat → Nat) :
    ∀ (sizes : List Nat) (st : SweepState),
      (∀ m ∈ sizes, exit m = 0) →
      st.scratch = [SFile.params] →
      runSweep exit st sizes
        = Except.ok
            { scratch := [SFile.params],
              results := (sizes.map json_filename).reverse ++ st.results } := by
  intro sizes
  induction sizes with
  | nil => intro st _ hs; simp [runSweep, ← hs]
  | cons n rest ih =>
    intro st h hs
    have hn : exit n = 0 := h n (List.mem_cons_self n rest)
    have hrest := fun m hm => h m (List.mem_cons_of_mem n hm)
    simp only [runSweep, runSize_ok exit st n hn hs]
    rw [ih { scratch := [SFile.params], results := json_filename n :: st.results }
      hrest rfl]
    simp [List.reverse_cons, List.append_assoc]

theorem runSweep_append (exit : Nat → Nat) :
    ∀ (pre rest : List Nat) (st : SweepState),
      runSweep exit st (pre ++ rest)
        = match runSweep exit st pre with
          | Except.error e => Except.error e
          | Except.ok st2 => runSweep exit st2 rest := by
  intro pre
  induction pre with
  | nil => intro rest st; rfl
  | cons n pre ih =>
    intro rest st
    simp only [List.cons_append, runSweep]
    cases hrs : runSize exit st n with
    | error e => rfl
    | ok st2 => exact ih rest st2

/-- C3: a nonzero solver exit aborts the whole sweep: earlier RunResult
files remain, no RunResult file of a successor size exists, and the failing
log stays in scratch; a zero exit removes the log right after the run. -/
theorem c3_nonzero_exit_aborts :
    (∀ (exit : Nat → Nat) (pre : List Nat) (n : Nat) (post : List Nat),
      (∀ m ∈ pre, exit m = 0) →
      exit n ≠ 0 →
      ∃ st : SweepState,
        execute exit (pre ++ n :: post) = Except.error st
        ∧ st.results = (pre.map json_filename).reverse
        ∧ SFile.log n ∈ st.scratch
        ∧ ∀ m ∈ post, m ∉ pre → json_filename m ∉ st.results)
    ∧ (∀ (exit : Nat → Nat) (st : SweepState) (n : Nat),
        exit n = 0 →
        ∃ st2 : SweepState,
          exec_sim exit st n = Except.ok st2 ∧ SFile.log n ∉ st2.scratch) := by
  constructor
  · intro exit pre n post hpre hn
    have hsweep := runSweep_all_ok exit pre
      { scratch := [SFile.params], results := [] } hpre rfl
    refine ⟨{ scratch := [SFile.log n, SFile.geom n, SFile.params],
              results := (pre.map json_filename).reverse }, ?_, rfl, ?_, ?_⟩
    · unfold execute
      rw [runSweep_append exit pre (n :: post)]
      rw [hsweep]
      simp only [runSweep, runSize, exec_sim]
      rw [if_neg hn]
      simp
    · simp
    · intro m hm hmpre hmem
      rw [List.mem_reverse] at hmem
      obtain ⟨p, hp, hpm⟩ := List.mem_map.mp hmem
      exact hmpre (json_filename_inj hpm ▸ hp)
  · intro exit st n h0
    refine ⟨{ scratch := (SFile.log n :: st.scratch).filter (fun f => f ≠ SFile.log n),
              results := json_filename n :: st.results }, ?_, ?_⟩
    · simp only [exec_sim]
      rw [if_pos h0]
    · intro hmem
      have := (List.mem_filter.mp hmem).2
      simp at this

theorem c3_nonzero_exit_aborts_witness :
    ∃ st : SweepState,
      execute (fun m => if m = 32 then 0 else 1) ([32] ++ 64 :: [100])
          = Except.error st
        ∧ st.results = ([32].map json_filename).reverse
        ∧ SFile.log 64 ∈ st.scratch
        ∧ ∀ m ∈ [100], m ∉ [32] → json_filename m ∉ st.results :=
  c3_nonzero_exit_aborts.1 (fun m => if m = 32 then 0 else 1) [32] 64 [100]
    (by intro m hm
        rcases List.mem_cons.mp hm with h | hm
        · subst h; rfl
        · exact absurd hm (List.not_mem_nil m))
    (by decide)

/-! ## Scratch lifecycle trace (executor.py, execute)

For the invariant about files alive in scratch we record every intermediate
scratch state a successful sweep traverses, in source order: after
create_params; then per size after create_geom, after opening the stdout
log, after removing the log, after removing the geometry; finally after
removing the parameter file.
-/

/-- Scratch states traversed by the size loop starting from scratch state
`s`, ending with the removal of the parameter file. -/
def sweepScratchStates : List Nat → List SFile → List (List SFile)
  | [], s => [s.filter (fun f => f ≠ SFile.params)]
  | n :: rest, s =>
    let s1 := SFile.geom n :: s
    let s2 := SFile.log n :: s1
    let s3 := s2.filter (fun f => f ≠ SFile.log n)
    let s4 := s3.filter (fun f => f ≠ SFile.geom n)
    s1 :: s2 :: s3 :: s4 :: sweepScratchStates rest s4

/-- All scratch states of a full sweep, beginning right after create_params. -/
def executeScratchStates (sizes : List Nat) : List (List SFile) :=
  [SFile.params] :: sweepScratchStates sizes [SFile.params]

/-- Number of geometry files in a scratch state. -/
def countGeom (s : List SFile) : Nat :=
  (s.filter (fun f => match f with | SFile.geom _ => true | _ => false)).length

/-- Number of parameter files in a scratch state. -/
def countParams (s : List SFile) : Nat :=
  (s.filter (fun f => match f with | SFile.params => true | _ => false)).length

theorem sweepScratchStates_inv (sizes : List Nat) :
    (∀ t ∈ sweepScratchStates sizes [SFile.params],
      countGeom t ≤ 1 ∧ countParams t ≤ 1)
    ∧ (sweepScratchStates sizes [SFile.params]).getLast? = some [] := by
  induction sizes with
  | nil =>
    constructor
    · intro t ht
      have : t = [] := by simpa [sweepScratchStates, List.filter] using ht
      subst this
      exact ⟨by decide, by decide⟩
    · simp [sweepScratchStates, List.filter]
  | cons n rest ih =>
    have hs4 : (((SFile.log n :: SFile.geom n :: [SFile.params]).filter
          (fun f => f ≠ SFile.log n)).filter (fun f => f ≠ SFile.geom n))
        = [SFile.params] := by
      simp [List.filter_cons]
    constructor
    · intro t ht
      simp only [sweepScratchStates, List.mem_cons] at ht
      rcases ht with h | h | h | h | h
      · subst h
        refine ⟨?_, ?_⟩ <;> simp [countGeom, countParams, List.filter_cons]
      · subst h
        refine ⟨?_, ?_⟩ <;> simp [countGeom, countParams, List.filter_cons]
      · subst h
        rw [filter_ne_self]
        refine ⟨?_, ?_⟩ <;> simp [countGeom, countParams, List.filter_cons]
      · subst h
        rw [hs4]
        exact ⟨by decide, by decide⟩
      · rw [hs4] at h
        exact ih.1 t h
    · obtain ⟨x, xs, hx⟩ : ∃ x xs, sweepScratchStates rest [SFile.params] = x :: xs := by
        cases rest <;> exact ⟨_, _, rfl⟩
      simp only [sweepScratchStates]
      rw [hs4, hx]
      simp only [List.getLast?_cons_cons]
      rw [← hx]
      exact ih.2

/-- C9: at every point of the sweep at most one parameter file and at most
one geometry file are alive in scratch; the trace starts with only the
parameter file (created before the first size) and ends empty (the
parameter file is removed after the last size). -/
theorem c9_scratch_single_slot :
    ∀ sizes : List Nat,
      (∀ t ∈ executeScratchStates sizes, countGeom t ≤ 1 ∧ countParams t ≤ 1)
      ∧ (executeScratchStates sizes).head? = some [SFile.params]
      ∧ (executeScratchStates sizes).getLast? = some [] := by
  intro sizes
  refine ⟨?_, rfl, ?_⟩
  · intro t ht
    rcases List.mem_cons.mp ht with h | h
    · subst h; exact ⟨by decide, by decide⟩
    · exact (sweepScratchStates_inv sizes).1 t h
  · obtain ⟨x, xs, hx⟩ : ∃ x xs, sweepScratchStates sizes [SFile.params] = x :: xs := by
      cases sizes <;> exact ⟨_, _, rfl⟩
    simp only [executeScratchStates, hx, List.getLast?_cons_cons]
    rw [← hx]
    exact (sweepScratchStates_inv sizes).2

/-! ## Shell command construction (executor.py, exec_sim)

exec_sim builds one shell command string and passes it to
`subprocess.check_call(cmd, shell=True)`.  Only the executable is wrapped
in double quotes; the three path arguments are interpolated bare.  We model
the field splitting the shell performs on this string: double quotes group,
unquoted spaces separate words.  (Other shell expansions only make bare
interpolation worse, so this model is the generous reading of the claim.)
-/

/-- Shell field splitting: the first argument is the inside-double-quotes
flag, the second the word collected so far. -/
def swAux : Bool → List Char → List Char → List (List Char)
  | _, cur, [] => if cur.isEmpty then [] else [cur]
  | true, cur, c :: rest =>
    if c = '"' then swAux false cur rest
    else swAux true (cur ++ [c]) rest
  | false, cur, c :: rest =>
    if c = '"' then swAux true cur rest
    else if c = ' ' then
      if cur.isEmpty then swAux false [] rest else cur :: swAux false [] rest
    else swAux false (cur ++ [c]) rest

/-- Words the shell passes to the program, for a given command string. -/
def shellWords (s : String) : List (List Char) :=
  swAux false [] s.data

/-- The command string built by exec_sim (lines 101-104 of executor.py):
quoted executable, then bare `--geom`, `--params` and `--json` path
arguments. -/
def execCmd (scriptDir dataDir : String) (n : Nat) : String :=
  "\"" ++ scriptDir ++ "/" ++ REL_PATH_NUMSIM_EXEC ++ "\""
  ++ " --geom " ++ absPathGeom scriptDir n
  ++ " --params " ++ absPathParams scriptDir
  ++ " --json " ++ (dataDir ++ "/" ++ json_filename n)

/-- The three path arguments the caller intends to pass. -/
def intendedWords (scriptDir dataDir : String) (n : Nat) : List (List Char) :=
  [(scriptDir ++ "/" ++ REL_PATH_NUMSIM_EXEC).data,
   "--geom".data, (absPathGeom scriptDir n).data,
   "--params".data, (absPathParams scriptDir).data,
   "--json".data, (dataDir ++ "/" ++ json_filename n).data]

/-- Characters that survive bare interpolation: no double quote; no space
when splitting applies. -/
abbrev ShellSafe (l : List Char) : Prop := ∀ c ∈ l, c ≠ '"' ∧ c ≠ ' '

/-- Characters that survive inside a double-quoted region. -/
abbrev QuoteFree (l : List Char) : Prop := ∀ c ∈ l, c ≠ '"'

theorem swAux_chunk_true {w : List Char} (cur rest : List Char)
    (hw : ∀ c ∈ w, c ≠ '"') :
    swAux true cur (w ++ rest) = swAux true (cur ++ w) rest := by
  induction w generalizing cur with
  | nil => simp
  | cons c w ih =>
    have hc := hw c (List.mem_cons_self c w)
    have hw2 : ∀ d ∈ w, d ≠ '"' := fun d hd => hw d (List.mem_cons_of_mem c hd)
    simp only [List.cons_append, swAux, if_neg hc, List.append_eq]
    rw [ih (cur ++ [c]) hw2]
    simp [List.append_assoc]

theorem swAux_chunk_false {w : List Char} (cur rest : List Char)
    (hw : ShellSafe w) :
    swAux false cur (w ++ rest) = swAux false (cur ++ w) rest := by
  induction w generalizing cur with
  | nil => simp
  | cons c w ih =>
    have hc := hw c (List.mem_cons_self c w)
    have hw2 : ShellSafe w := fun d hd => hw d (List.mem_cons_of_mem c hd)
    simp only [List.cons_append, swAux, if_neg hc.1, if_neg hc.2, List.append_eq]
    rw [ih (cur ++ [c]) hw2]
    simp [List.append_assoc]

theorem swAux_space (cur rest : List Char) (h : cur ≠ []) :
    swAux false cur (' ' :: rest) = cur :: swAux false [] rest := by
  simp only [swAux, if_neg (by decide : ¬ (' ' : Char) = '"'), if_pos rfl]
  simp [h]

theorem swAux_quote_open (cur rest : List Char) :
    swAux false cur ('"' :: rest) = swAux true cur rest := by
  simp [swAux]

theorem swAux_quote_close (cur rest : List Char) :
    swAux true cur ('"' :: rest) = swAux false cur rest := by
  simp [swAux]

theorem swAux_end (inQ : Bool) (cur : List Char) (h : cur ≠ []) :
    swAux inQ cur [] = [cur] := by
  simp [swAux, List.isEmpty_iff, h]

theorem shellSafe_append {a b : List Char} (ha : ShellSafe a) (hb : ShellSafe b) :
    ShellSafe (a ++ b) :=
  fun c hc => (List.mem_append.mp hc).elim (ha c) (hb c)

theorem quoteFree_append {a b : List Char} (ha : QuoteFree a) (hb : QuoteFree b) :
    QuoteFree (a ++ b) :=
  fun c hc => (List.mem_append.mp hc).elim (ha c) (hb c)

theorem swAux_single (w : List Char) (hw : ShellSafe w) (hne : w ≠ []) :
    swAux false [] w = [w] := by
  have h := swAux_chunk_false (w := w) [] [] hw
  rw [List.append_nil, List.nil_append] at h
  rw [h, swAux_end false w hne]

theorem shellWords_quoted_exe_bare_args (exe g p j : List Char)
    (hexe : ∀ c ∈ exe, c ≠ '"') (hexene : exe ≠ [])
    (hg : ShellSafe g) (hgne : g ≠ [])
    (hp : ShellSafe p) (hpne : p ≠ [])
    (hj : ShellSafe j) (hjne : j ≠ []) :
    swAux false []
      ('"' :: (exe ++ ('"' :: (' ' :: ("--geom".data
        ++ (' ' :: (g ++ (' ' :: ("--params".data
        ++ (' ' :: (p ++ (' ' :: ("--json".data
        ++ (' ' :: j))))))))))))))
      = [exe, "--geom".data, g, "--params".data, p, "--json".data, j] := by
  rw [swAux_quote_open, swAux_chunk_true [] _ hexe, List.nil_append,
    swAux_quote_close, swAux_space _ _ hexene,
    swAux_chunk_false [] _ (by decide), List.nil_append,
    swAux_space _ _ (by decide),
    swAux_chunk_false [] _ hg, List.nil_append,
    swAux_space _ _ hgne,
    swAux_chunk_false [] _ (by decide), List.nil_append,
    swAux_space _ _ (by decide),
    swAux_chunk_false [] _ hp, List.nil_append,
    swAux_space _ _ hpne,
    swAux_chunk_false [] _ (by decide), List.nil_append,
    swAux_space _ _ (by decide),
    swAux_single j hj hjne]

/-- C4 (amended): only the executable word of the command is quoted; the
three path arguments are interpolated bare, so the solver receives exactly
the intended path arguments whenever the script directory and the data
directory contain no space and no double quote.  (See the counterexample
for a directory with a space.) -/
theorem c4_amended_cmd_words (sd dd : String) (n : Nat)
    (hsd : ShellSafe sd.data) (hdd : ShellSafe dd.data) :
    shellWords (execCmd sd dd n) = intendedWords sd dd n := by
  have hrepr : ShellSafe (Nat.repr n).data :=
    fun c hc => ⟨(repr_safe n c hc).2.2, (repr_safe n c hc).2.1⟩
  have hslash : ShellSafe ("/" : String).data := by decide
  have hg : ShellSafe (absPathGeom sd n).data := by
    simp only [absPathGeom, absPathTmp, DATAFILE_STEM, GEOM_SUFFIX, REL_PATH_TMP,
      String.data_append]
    refine shellSafe_append (shellSafe_append (shellSafe_append (shellSafe_append
      (shellSafe_append (shellSafe_append (shellSafe_append (shellSafe_append
        (shellSafe_append hsd hslash) (by decide)) hslash) (by decide)) (by decide))
          hrepr) (by decide)) hrepr) (by decide)
  have hp : ShellSafe (absPathParams sd).data := by
    simp only [absPathParams, absPathTmp, DATAFILE_STEM, PARAMS_SUFFIX, REL_PATH_TMP,
      String.data_append]
    refine shellSafe_append (shellSafe_append (shellSafe_append (shellSafe_append
      (shellSafe_append hsd hslash) (by decide)) hslash) (by decide)) (by decide)
  have hj : ShellSafe (dd ++ "/" ++ json_filename n).data := by
    simp only [json_filename, DATAFILE_STEM, JSON_SUFFIX, String.data_append]
    refine shellSafe_append (shellSafe_append hdd hslash)
      (shellSafe_append (shellSafe_append (shellSafe_append (shellSafe_append
        (shellSafe_append (by decide) (by decide)) hrepr) (by decide)) hrepr)
          (by decide))
  have hexe : QuoteFree (sd ++ "/" ++ REL_PATH_NUMSIM_EXEC).data := by
    simp only [REL_PATH_NUMSIM_EXEC, String.data_append]
    exact quoteFree_append (quoteFree_append (fun c hc => (hsd c hc).1) (by decide))
      (by decide)
  have hshape : (execCmd sd dd n).data
      = '"' :: ((sd ++ "/" ++ REL_PATH_NUMSIM_EXEC).data ++ ('"' :: (' ' :: ("--geom".data
        ++ (' ' :: ((absPathGeom sd n).data ++ (' ' :: ("--params".data
        ++ (' ' :: ((absPathParams sd).data ++ (' ' :: ("--json".data
        ++ (' ' :: (dd ++ "/" ++ json_filename n).data))))))))))))) := by
    simp [execCmd, String.data_append, List.append_assoc]
  have hgne : (absPathGeom sd n).data ≠ [] := by
    simp [absPathGeom, absPathTmp, DATAFILE_STEM, GEOM_SUFFIX, REL_PATH_TMP,
      String.data_append]
  have hpne : (absPathParams sd).data ≠ [] := by
    simp [absPathParams, absPathTmp, DATAFILE_STEM, PARAMS_SUFFIX, REL_PATH_TMP,
      String.data_append]
  have hjne : (dd ++ "/" ++ json_filename n).data ≠ [] := by
    simp [json_filename, DATAFILE_STEM, JSON_SUFFIX, String.data_append]
  have hexene : (sd ++ "/" ++ REL_PATH_NUMSIM_EXEC).data ≠ [] := by
    simp [REL_PATH_NUMSIM_EXEC, String.data_append]
  unfold shellWords
  rw [hshape, shellWords_quoted_exe_bare_args _ _ _ _ hexe hexene hg hgne hp hpne hj hjne]
  rfl

theorem c4_amended_cmd_words_witness :
    shellWords (execCmd "/opt/numsim" "/data" 32) = intendedWords "/opt/numsim" "/data" 32 :=
  c4_amended_cmd_words "/opt/numsim" "/data" 32 (by decide) (by decide)

/-- C4 as stated is false: with a space in the script directory (which all
three argument paths embed) the shell does not pass the intended argument
words to the solver. -/
theorem c4_counterexample_space_in_path :
    shellWords (execCmd "/opt/num sim" "/data" 32)
      ≠ intendedWords "/opt/num sim" "/data" 32 := by decide

end NumSimVal
